import Mathlib

/-!
Shallow embedding of the go-csv tag-driven CSV binding engine
(repository AidanJHMurphy/go-csv, file `csvTag.go`), together with
theorems settling the specification claims about it.

Modelling conventions:
* Go machine integers are modelled as `Int`/`Nat` with explicit range
  checks where the source checks or overflows matter.
* The Go `map[string]csvAttributes` is modelled as an insertion-ordered
  association list; the `for ... range` map iteration of the source is
  modelled as iteration in that list order (Go map order is unspecified,
  and the spec itself declares the iteration order unspecified).
* `encoding/csv.Reader` is, per the spec, an external "line-to-cells"
  collaborator; its `Read` is modelled as taking the next row from a
  list of pre-split rows, with `io.EOF` on exhaustion.
* Go runtime panics (slice index out of range, calls on zero
  `reflect.Value`) are modelled as an explicit `panicked` outcome,
  distinct from returned errors.
* Floating-point fields: parse success is modelled syntactically and the
  parsed value is carried as its source text; IEEE-754 value semantics
  are outside the embedding (no claim concerns float values).
-/

set_option autoImplicit false

namespace GoCsv

/-- Static Go types a struct field can have, as far as the engine
distinguishes them. -/
inductive GoType where
  | tString
  | tBool
  | tInt
  | tInt8
  | tInt16
  | tInt32
  | tInt64
  | tUint
  | tUint8
  | tUint16
  | tUint32
  | tUint64
  | tFloat32
  | tFloat64
  | tComplex64
  | tComplex128
  | tOther (name : String)
deriving DecidableEq, Repr

/-- Runtime value stored in a struct field. Float and complex values are
carried as the raw text they were parsed from (their numeric semantics
are irrelevant to every claim). -/
inductive GoValue where
  | vString (s : String)
  | vBool (b : Bool)
  | vInt (n : Int)
  | vUint (n : Nat)
  | vFloat (repr : String)
  | vComplex (repr : String)
  | vOther
deriving DecidableEq, Repr

/-- One declared field of a Go struct: name, exportedness, the raw `csv`
tag text (`""` when the tag is absent), static type and current value. -/
structure GoField where
  name : String
  exported : Bool
  tag : String
  type : GoType
  value : GoValue
deriving DecidableEq, Repr

/-- A Go struct instance handed to the engine through a pointer:
its fields, whether its (pointer) type implements the `CustomSetter`
interface, and the behaviour of that method when implemented.
`customSetter name value fields` returns the updated fields together
with `some msg` when the setter reports an error (the setter is caller
code, hence modelled as an arbitrary function). -/
structure GoStruct where
  fields : List GoField
  implementsCustomSetter : Bool
  customSetter : String → String → List GoField → List GoField × Option String

/-- Error values of the package: the sentinel errors, the wrapping error
structs (`CsvTagDefError`, `FieldNotFoundError`, `SetValueError`),
`io.EOF`, opaque `strconv` failures and custom-setter messages. -/
inductive GoError where
  | errMissingCustomSetter
  | errUnsupportedDataType
  | errInvalidIndex
  | errMalformedCsvTag
  | errUnexportedField
  | errFieldNotFound
  | errEOF
  | strconvError (func arg : String)
  | customErrMsg (msg : String)
  | csvTagDefError (csvTag fieldName : String) (err : GoError)
  | fieldNotFoundError (fieldName headerName : String) (err : GoError)
  | setValueError (value fieldName : String) (err : GoError)
deriving DecidableEq, Repr

/-- `csvAttributes` from csvTag.go; `columnIndex` is a Go `int`. -/
structure csvAttributes where
  headerName : String := ""
  columnIndex : Int := 0
  useCustomSetter : Bool := false
deriving DecidableEq, Repr

/-- Numeric value of a digit string, most significant digit first. -/
def digitsVal (cs : List Char) : Nat :=
  cs.foldl (fun acc c => acc * 10 + (c.toNat - 48)) 0

/-- `some n` when `cs` is a non-empty run of decimal digits. -/
def digitsToNat (cs : List Char) : Option Nat :=
  if cs.isEmpty then none
  else if cs.all Char.isDigit then some (digitsVal cs) else none

/-- `strconv.Atoi`: optional sign, then decimal digits; `none` on
empty/garbage input or 64-bit signed overflow (Go reports both as a
non-nil error, which is all the callers inspect). -/
def Atoi (s : String) : Option Int :=
  match s.data with
  | '+' :: rest =>
      (digitsToNat rest).bind fun n =>
        if n < 2 ^ 63 then some (n : Int) else none
  | '-' :: rest =>
      (digitsToNat rest).bind fun n =>
        if n ≤ 2 ^ 63 then some (-(n : Int)) else none
  | l =>
      (digitsToNat l).bind fun n =>
        if n < 2 ^ 63 then some (n : Int) else none

/-- `strconv.ParseUint(s, 10, 64)`: decimal digits only, no sign. -/
def ParseUint (s : String) : Option Nat :=
  (digitsToNat s.data).bind fun n =>
    if n < 2 ^ 64 then some n else none

/-- Splits a character list at the first `e`/`E`, for float syntax. -/
def splitExp : List Char → List Char × Option (List Char)
  | [] => ([], none)
  | c :: rest =>
      if c = 'e' || c = 'E' then ([], some rest)
      else
        let r := splitExp rest
        (c :: r.1, r.2)

/-- Decimal mantissa: `digits`, `digits.digits*` or `.digits`. -/
def validDec (cs : List Char) : Bool :=
  match cs.span Char.isDigit with
  | (ds, []) => !ds.isEmpty
  | (ds, '.' :: frac) => (!ds.isEmpty || !frac.isEmpty) && frac.all Char.isDigit
  | _ => false

/-- Exponent part: optional sign then digits. -/
def validExp (cs : List Char) : Bool :=
  match cs with
  | '+' :: ds => !ds.isEmpty && ds.all Char.isDigit
  | '-' :: ds => !ds.isEmpty && ds.all Char.isDigit
  | ds => !ds.isEmpty && ds.all Char.isDigit

/-- Syntactic model of `strconv.ParseFloat` success on the common
decimal forms (the numeric value itself is abstracted away). -/
def validFloat (s : String) : Bool :=
  let body :=
    match s.data with
    | '+' :: rest => rest
    | '-' :: rest => rest
    | l => l
  match splitExp body with
  | (m, none) => validDec m
  | (m, some e) => validDec m && validExp e

/-- Splits a character list around every occurrence of `sep`; never
returns the empty list (`[]` maps to `[[]]`, as Go's `strings.Split`
maps `""` to `[""]`). -/
def splitOnChar (sep : Char) : List Char → List (List Char)
  | [] => [[]]
  | c :: rest =>
      if c = sep then [] :: splitOnChar sep rest
      else
        match splitOnChar sep rest with
        | [] => [[c]]
        | g :: gs => (c :: g) :: gs

/-- `strings.Split` for a single-character separator (the source only
splits on `";"` and `":"`). -/
def stringSplit (s : String) (sep : Char) : List String :=
  (splitOnChar sep s.data).map (fun cs => String.mk cs)

/-- Key of one `;`-separated tag clause (text before the first `:`). -/
def clauseKey (clause : String) : String :=
  (stringSplit clause ':').headD ""

/-- Value of one tag clause: the text after the first `:` as Go's
`strings.Split` produces it (second list element), `""` when absent. -/
def clauseVal (clause : String) : String :=
  (stringSplit clause ':').getD 1 ""

/-- The clause loop of `getAttributesFromTag` (csvTag.go lines 107-131):
walks the `;`-separated clauses, tracking `hasHeader`/`hasIndex`,
failing with `ErrorInvalidIndex` on a bad `index` value, and silently
ignoring unrecognized keys. -/
def attrLoop : List String → csvAttributes → Bool → Bool →
    Except GoError (csvAttributes × Bool × Bool)
  | [], attrs, hasHeader, hasIndex => .ok (attrs, hasHeader, hasIndex)
  | clause :: rest, attrs, hasHeader, hasIndex =>
      let key := clauseKey clause
      let value := clauseVal clause
      if key = "header" then
        attrLoop rest { attrs with headerName := value } true hasIndex
      else if key = "index" then
        match Atoi value with
        | none => .error .errInvalidIndex
        | some n =>
            if n < 0 then .error .errInvalidIndex
            else attrLoop rest { attrs with columnIndex := n } hasHeader true
      else if key = "useCustomSetter" then
        attrLoop rest { attrs with useCustomSetter := true } hasHeader hasIndex
      else attrLoop rest attrs hasHeader hasIndex

/-- `getAttributesFromTag` (csvTag.go lines 102-138): parses one tag,
then fails with `ErrorMalformedCsvTag` when neither `header` nor
`index` appeared. -/
def getAttributesFromTag (tag : String) : Except GoError csvAttributes :=
  match attrLoop (stringSplit tag ';') {} false false with
  | .error e => .error e
  | .ok (attrs, hasHeader, hasIndex) =>
      if !hasHeader && !hasIndex then .error .errMalformedCsvTag
      else .ok attrs

/-- `isValidDataType` (csvTag.go lines 41-47): the type switch lists
exactly `string`, the signed integer types and the two float types. -/
def isValidDataType : GoType → Bool
  | .tString => true
  | .tInt => true
  | .tInt8 => true
  | .tInt16 => true
  | .tInt32 => true
  | .tInt64 => true
  | .tFloat32 => true
  | .tFloat64 => true
  | _ => false

/-- Insertion-ordered model of the Go `map[string]csvAttributes`. -/
abbrev AttrMap := List (String × csvAttributes)

/-- Go map read `m[k]` without the ok flag: zero value when absent. -/
def lookupAttr (m : AttrMap) (k : String) : csvAttributes :=
  match m.find? (fun p => p.1 = k) with
  | some p => p.2
  | none => {}

/-- The field loop of `getCsvAttributes` (csvTag.go lines 55-98):
fields in declaration order; untagged fields skipped; first violation
returns the map **built so far** together with the wrapped error, as
the source's `return csvAttrs, CsvTagDefError{...}` does. -/
def getCsvAttributesLoop (supportsCustomData : Bool) :
    List GoField → AttrMap → AttrMap × Option GoError
  | [], acc => (acc, none)
  | field :: rest, acc =>
      if field.tag = "" then getCsvAttributesLoop supportsCustomData rest acc
      else if !field.exported then
        (acc, some (.csvTagDefError field.tag field.name .errUnexportedField))
      else
        match getAttributesFromTag field.tag with
        | .error e => (acc, some (.csvTagDefError field.tag field.name e))
        | .ok fieldAttrs =>
            if fieldAttrs.useCustomSetter && !supportsCustomData then
              (acc, some (.csvTagDefError field.tag field.name .errMissingCustomSetter))
            else if !isValidDataType field.type && !supportsCustomData then
              (acc, some (.csvTagDefError field.tag field.name .errUnsupportedDataType))
            else
              getCsvAttributesLoop supportsCustomData rest
                (acc ++ [(field.name, fieldAttrs)])

/-- `getCsvAttributes` (csvTag.go lines 49-100). -/
def getCsvAttributes (s : GoStruct) : AttrMap × Option GoError :=
  getCsvAttributesLoop s.implementsCustomSetter s.fields []

/-- The `Parser` struct: the remaining rows of the underlying
`csv.Reader` (the external line-to-cells collaborator) and the cached
binding table `csvAttrs`. -/
structure Parser where
  rows : List (List String)
  csvAttrs : AttrMap
deriving DecidableEq, Repr

/-- The inner loop of `ParseHeader` (csvTag.go lines 191-201): scan the
header row left to right for the first cell equal to the wanted label,
carrying the running index. -/
def scanHeader (name : String) : List String → Nat → Option Nat
  | [], _ => none
  | headerLabel :: rest, idx =>
      if headerLabel = name then some idx
      else scanHeader name rest (idx + 1)

/-- The outer loop of `ParseHeader` (csvTag.go lines 189-208): for every
binding in table order, scan the header for its `headerName`; on a hit
rewrite that binding's `columnIndex` in place and continue, otherwise
return immediately with a `FieldNotFoundError`, leaving the current and
the remaining bindings as they were. -/
def resolveBindings (header : List String) :
    AttrMap → AttrMap × Option GoError
  | [] => ([], none)
  | (fieldName, attrs) :: rest =>
      match scanHeader attrs.headerName header 0 with
      | some idx =>
          let r := resolveBindings header rest
          ((fieldName, { attrs with columnIndex := (idx : Int) }) :: r.1, r.2)
      | none =>
          ((fieldName, attrs) :: rest,
            some (.fieldNotFoundError fieldName attrs.headerName .errFieldNotFound))

/-- `ParseHeader` (csvTag.go lines 175-211): reads one row first, then
builds the binding table when it is still empty (keeping whatever
`getCsvAttributes` returned, even on failure), then resolves every
binding against the header row. -/
def ParseHeader (p : Parser) (rec : GoStruct) : Parser × Option GoError :=
  match p.rows with
  | [] => (p, some .errEOF)
  | header :: rest =>
      if p.csvAttrs.length = 0 then
        match getCsvAttributes rec with
        | (attrs, some e) => ({ p with rows := rest, csvAttrs := attrs }, some e)
        | (attrs, none) =>
            let r := resolveBindings header attrs
            ({ p with rows := rest, csvAttrs := r.1 }, r.2)
      else
        let r := resolveBindings header p.csvAttrs
        ({ p with rows := rest, csvAttrs := r.1 }, r.2)

/-- `reflect.Value.Elem().FieldByName`: first field with that name. -/
def fieldByName (fields : List GoField) (name : String) : Option GoField :=
  fields.find? (fun f => f.name = name)

/-- Replace the value of the (first) field named `name`. -/
def updateField (fields : List GoField) (name : String) (v : GoValue) :
    List GoField :=
  fields.map (fun f => if f.name = name then { f with value := v } else f)

/-- Bit width of a signed integer type (`int` is 64-bit here). -/
def intBits : GoType → Nat
  | .tInt8 => 8
  | .tInt16 => 16
  | .tInt32 => 32
  | _ => 64

/-- Bit width of an unsigned integer type (`uint` is 64-bit here). -/
def uintBits : GoType → Nat
  | .tUint8 => 8
  | .tUint16 => 16
  | .tUint32 => 32
  | _ => 64

/-- Outcome of `setFieldValue`: a (possibly mutated) struct, a returned
error (the struct may still have been mutated by a failing custom
setter), or a Go runtime panic. -/
inductive SetResult where
  | ok (rec : GoStruct)
  | err (rec : GoStruct) (e : GoError)
  | panicked (msg : String)

/-- `setFieldValue` (csvTag.go lines 245-325). The custom-setter path
calls the record's `CustomSetter` method (a runtime panic when the type
does not have one, since `MethodByName` then yields the zero `Value`);
otherwise the type switch of the source: `string`, the signed integer
types via `strconv.Atoi`, the unsigned ones via `strconv.ParseUint`,
`float32`/`float64` via `strconv.ParseFloat`, and every other type
(including `bool` and the complex types, absent from this switch)
falls to the `default` case returning `ErrorUnsupportedDataType`.
Every failure is wrapped in a `SetValueError` as in the source; reflect
`SetInt`/`SetUint` overflow panics are modelled as panics. -/
def setFieldValue (csvAttrs : AttrMap) (rec : GoStruct)
    (fieldName value : String) : SetResult :=
  if (lookupAttr csvAttrs fieldName).useCustomSetter then
    if rec.implementsCustomSetter then
      let r := rec.customSetter fieldName value rec.fields
      match r.2 with
      | some msg =>
          .err { rec with fields := r.1 }
            (.setValueError value fieldName (.customErrMsg msg))
      | none => .ok { rec with fields := r.1 }
    else .panicked "reflect: call of method on zero Value"
  else
    match fieldByName rec.fields fieldName with
    | none => .panicked "reflect: call of reflect.Value.Interface on zero Value"
    | some f =>
        match f.type with
        | .tString =>
            .ok { rec with fields := updateField rec.fields fieldName (.vString value) }
        | .tInt | .tInt8 | .tInt16 | .tInt32 | .tInt64 =>
            match Atoi value with
            | none => .err rec (.setValueError value fieldName (.strconvError "Atoi" value))
            | some n =>
                if -(2 ^ (intBits f.type - 1) : Int) ≤ n ∧ n < 2 ^ (intBits f.type - 1) then
                  .ok { rec with fields := updateField rec.fields fieldName (.vInt n) }
                else .panicked "reflect: SetInt overflow"
        | .tUint | .tUint8 | .tUint16 | .tUint32 | .tUint64 =>
            match ParseUint value with
            | none => .err rec (.setValueError value fieldName (.strconvError "ParseUint" value))
            | some n =>
                if n < 2 ^ uintBits f.type then
                  .ok { rec with fields := updateField rec.fields fieldName (.vUint n) }
                else .panicked "reflect: SetUint overflow"
        | .tFloat32 =>
            if validFloat value then
              .ok { rec with fields := updateField rec.fields fieldName (.vFloat value) }
            else .err rec (.setValueError value fieldName (.strconvError "ParseFloat" value))
        | .tFloat64 =>
            if validFloat value then
              .ok { rec with fields := updateField rec.fields fieldName (.vFloat value) }
            else .err rec (.setValueError value fieldName (.strconvError "ParseFloat" value))
        | _ => .err rec (.setValueError value fieldName .errUnsupportedDataType)

/-- Outcome of `ReadRecord`: parser and record after the call, an error
together with the state reached so far, or a Go runtime panic. -/
inductive ReadResult where
  | ok (p : Parser) (rec : GoStruct)
  | err (p : Parser) (rec : GoStruct) (e : GoError)
  | panicked (msg : String)

/-- The per-binding loop of `ReadRecord` (csvTag.go lines 228-240):
`value := readRecord[idx]` panics when `idx` is outside the row (there
is no bounds check in the source); a `setFieldValue` failure is wrapped
in a second `SetValueError` and ends the row, keeping the mutations
already applied to earlier fields. -/
def readLoop (p : Parser) (row : List String) :
    AttrMap → GoStruct → ReadResult
  | [], rec => .ok p rec
  | (fieldName, attrs) :: rest, rec =>
      let idx := attrs.columnIndex
      if 0 ≤ idx ∧ idx.toNat < row.length then
        let value := row.getD idx.toNat ""
        match setFieldValue p.csvAttrs rec fieldName value with
        | .panicked msg => .panicked msg
        | .err rec2 e => .err p rec2 (.setValueError value fieldName e)
        | .ok rec2 => readLoop p row rest rec2
      else .panicked "runtime error: index out of range"

/-- The part of `ReadRecord` after the binding table is in place: read
the next row (EOF propagates verbatim) and run the binding loop. -/
def readRecordBody (p : Parser) (rec : GoStruct) : ReadResult :=
  match p.rows with
  | [] => .err p rec .errEOF
  | row :: rest => readLoop { p with rows := rest } row p.csvAttrs rec

/-- `ReadRecord` (csvTag.go lines 213-243): builds the binding table
first when it is empty (keeping the partially built table even when
extraction fails), then consumes one row and decodes it. -/
def ReadRecord (p : Parser) (rec : GoStruct) : ReadResult :=
  if p.csvAttrs.length = 0 then
    match getCsvAttributes rec with
    | (attrs, some e) => .err { p with csvAttrs := attrs } rec e
    | (attrs, none) => readRecordBody { p with csvAttrs := attrs } rec
  else readRecordBody p rec

/-- Returned error of a `ReadRecord` outcome, `none` for success or a
runtime panic. -/
def ReadResult.errOf : ReadResult → Option GoError
  | .ok _ _ => none
  | .err _ _ e => some e
  | .panicked _ => none

/-- Parser state carried by a non-panicking `ReadRecord` outcome. -/
def ReadResult.parserOf : ReadResult → Option Parser
  | .ok p _ => some p
  | .err p _ _ => some p
  | .panicked _ => none

/-- Fields of the record carried by a non-panicking outcome. -/
def ReadResult.recFieldsOf : ReadResult → Option (List GoField)
  | .ok _ rec => some rec.fields
  | .err _ rec _ => some rec.fields
  | .panicked _ => none

/-- Whether the outcome is a Go runtime panic. -/
def ReadResult.isPanic : ReadResult → Bool
  | .panicked _ => true
  | _ => false

/-- Whether the outcome is a successful row decode. -/
def ReadResult.isOk : ReadResult → Bool
  | .ok _ _ => true
  | _ => false

/-! Concrete record instances used to evaluate the engine. -/

/-- A `CustomSetter` body for types that do not implement the
interface (never reached through a well-formed table). -/
def noSetter : String → String → List GoField → List GoField × Option String :=
  fun _ _ fs => (fs, none)

/-- `struct { Boolean bool `csv:"header:boolean"` }`, no capability. -/
def boolRec : GoStruct :=
  ⟨[⟨"Boolean", true, "header:boolean", .tBool, .vBool false⟩], false, noSetter⟩

/-- `struct { U uint8 `csv:"header:u"` }`, no capability. -/
def uintRec : GoStruct :=
  ⟨[⟨"U", true, "header:u", .tUint8, .vUint 0⟩], false, noSetter⟩

/-- `struct { C complex64 `csv:"header:c"` }`, no capability. -/
def cplxRec : GoStruct :=
  ⟨[⟨"C", true, "header:c", .tComplex64, .vComplex "0"⟩], false, noSetter⟩

/-- `struct { F string `csv:"index:3"` }`. -/
def recIdx3 : GoStruct :=
  ⟨[⟨"F", true, "index:3", .tString, .vString ""⟩], false, noSetter⟩

/-- `struct { A string `csv:"header:h1"`; B string `csv:"index:0"` }`:
one header-based and one index-based binding. -/
def recMixed : GoStruct :=
  ⟨[⟨"A", true, "header:h1", .tString, .vString ""⟩,
    ⟨"B", true, "index:0", .tString, .vString ""⟩], false, noSetter⟩

/-- `struct { A string `csv:"index:0"`; B string `csv:"badkey"` }`:
a valid binding followed by a malformed tag. -/
def recAB : GoStruct :=
  ⟨[⟨"A", true, "index:0", .tString, .vString ""⟩,
    ⟨"B", true, "badkey", .tString, .vString ""⟩], false, noSetter⟩

/-- `struct { F string `csv:"badkey"` }`: only a malformed tag. -/
def recBadTag : GoStruct :=
  ⟨[⟨"F", true, "badkey", .tString, .vString ""⟩], false, noSetter⟩

/-- `struct { Field1 string }` with an unrelated tag layout, standing in
for a record of a different type than the one a table was built from. -/
def recOther : GoStruct :=
  ⟨[⟨"Field1", true, "", .tString, .vString ""⟩], false, noSetter⟩

/-- An `index` clause value the source rejects: `strconv.Atoi` failure
or a negative parse. -/
def badIndexVal (v : String) : Bool :=
  match Atoi v with
  | none => true
  | some n => decide (n < 0)

/-! The claims. -/

/-- C1: evaluation of the engine at the types the claim promises are
supported. `isValidDataType` (csvTag.go lines 41-47) omits `bool`, all
unsigned integer types and the complex types, so metadata extraction on
a capability-free record with a `bool`, `uint8` or `complex64` field
fails with `UnsupportedDataType` instead of succeeding; and the type
switch of `setFieldValue` (lines 268-317) has no `bool` case, so a
boolean cell `"true"` is never parsed and falls to the `default` case.
This contradicts the repository's own `TestCsvDataTypes`, which expects
`bool`, `uint*` and `complex*` fields to decode. -/
theorem c1_missing_types_eval :
    (getCsvAttributes boolRec).2
      = some (.csvTagDefError "header:boolean" "Boolean" .errUnsupportedDataType)
    ∧ (getCsvAttributes uintRec).2
      = some (.csvTagDefError "header:u" "U" .errUnsupportedDataType)
    ∧ (getCsvAttributes cplxRec).2
      = some (.csvTagDefError "header:c" "C" .errUnsupportedDataType)
    ∧ setFieldValue [("Boolean", ⟨"boolean", 0, false⟩)] boolRec "Boolean" "true"
      = .err boolRec (.setValueError "true" "Boolean" .errUnsupportedDataType) :=
  ⟨rfl, rfl, rfl, rfl⟩

/-- C2 counterexample: a fresh parser over the single row `a,b` and a
record bound to `index:3`. `ReadRecord` evaluates `readRecord[3]` on a
two-cell row: the call is a runtime panic (index out of range), not a
returned `SetValueError`. -/
theorem c2_counterexample :
    (ReadRecord ⟨[["a", "b"]], []⟩ recIdx3).isPanic = true
    ∧ (ReadRecord ⟨[["a", "b"]], []⟩ recIdx3).errOf = none :=
  ⟨rfl, rfl⟩

/-- C3 counterexample: a table with a header-based binding `A ↦ h1` and
an index-based binding `B ↦ index 0`. Against header row `h1,x` the
call fails with `FieldNotFound` for the index-based binding `B` (its
empty `headerName` matches no cell); against header row `h1,<empty>`
the call succeeds but rewrites `B`'s `columnIndex` from 0 to 1. -/
theorem c3_counterexample :
    (ParseHeader ⟨[["h1", "x"]], []⟩ recMixed).2
      = some (.fieldNotFoundError "B" "" .errFieldNotFound)
    ∧ (ParseHeader ⟨[["h1", ""]], []⟩ recMixed).1.csvAttrs
      = [("A", ⟨"h1", 0, false⟩), ("B", ⟨"", 1, false⟩)] :=
  ⟨rfl, rfl⟩

/-- C4 counterexample: extraction on `recAB` fails at field `B`
(malformed tag), yet the first `ReadRecord` call stores the partial
table `{A}` in the reader, and a second call on the same reader skips
re-extraction and decodes `A` from the next row using that partial
table. -/
theorem c4_counterexample :
    (ReadRecord ⟨[["v1"], ["v2"]], []⟩ recAB).errOf
      = some (.csvTagDefError "badkey" "B" .errMalformedCsvTag)
    ∧ (ReadRecord ⟨[["v1"], ["v2"]], []⟩ recAB).parserOf
      = some ⟨[["v1"], ["v2"]], [("A", ⟨"", 0, false⟩)]⟩
    ∧ (ReadRecord ⟨[["v1"], ["v2"]], [("A", ⟨"", 0, false⟩)]⟩ recAB).isOk = true
    ∧ (ReadRecord ⟨[["v1"], ["v2"]], [("A", ⟨"", 0, false⟩)]⟩ recAB).recFieldsOf
      = some [⟨"A", true, "index:0", .tString, .vString "v1"⟩,
              ⟨"B", true, "badkey", .tString, .vString ""⟩] :=
  ⟨rfl, rfl, rfl, rfl⟩

/-- C5 counterexample: `ParseHeader` on a record whose only tag is
malformed. The call reads (and consumes) the header row `x` first and
only then fails extraction: afterwards no row is left, although the
claim promises failure before any row is consumed. -/
theorem c5_counterexample :
    ParseHeader ⟨[["x"]], []⟩ recBadTag
      = (⟨[], []⟩, some (.csvTagDefError "badkey" "F" .errMalformedCsvTag)) :=
  rfl

/-- C6 counterexample: a tag declaring both `header` and `index` is
accepted by `getAttributesFromTag`, not rejected: both attributes are
recorded in the resulting binding. -/
theorem c6_counterexample :
    getAttributesFromTag "header:h;index:2" = .ok ⟨"h", 2, false⟩ :=
  rfl

/-- When the cached table is empty and extraction fails, `ReadRecord`
returns the error and stores whatever partial table extraction built,
without touching the row source. -/
lemma readRecord_extraction_failed (p : Parser) (rec : GoStruct) (e : GoError)
    (hempty : p.csvAttrs = []) (hfail : (getCsvAttributes rec).2 = some e) :
    ReadRecord p rec = .err { p with csvAttrs := (getCsvAttributes rec).1 } rec e := by
  obtain ⟨rows, cattrs⟩ := p
  simp only at hempty
  subst hempty
  rcases hg : getCsvAttributes rec with ⟨attrs, err⟩
  rw [hg] at hfail
  simp only at hfail
  subst hfail
  simp [ReadRecord, hg]

/-- When the cached table is empty and extraction fails, `ParseHeader`
still consumes its header row first, then returns the error, storing
the partial table. -/
lemma parseHeader_extraction_failed (p : Parser) (rec : GoStruct) (e : GoError)
    (row : List String) (rest : List (List String))
    (hempty : p.csvAttrs = []) (hrows : p.rows = row :: rest)
    (hfail : (getCsvAttributes rec).2 = some e) :
    ParseHeader p rec
      = ({ p with rows := rest, csvAttrs := (getCsvAttributes rec).1 }, some e) := by
  obtain ⟨rows, cattrs⟩ := p
  simp only at hempty hrows
  subst hempty
  subst hrows
  rcases hg : getCsvAttributes rec with ⟨attrs, err⟩
  rw [hg] at hfail
  simp only at hfail
  subst hfail
  simp [ParseHeader, hg]

/-- C2 (amended): when the first binding the row loop processes needs a
cell beyond the end of the consumed row, `readRecord` panics with a Go
index-out-of-range runtime error; it does not return a
`SetValueError`. -/
theorem c2_amended (p : Parser) (rec : GoStruct) (row : List String)
    (rest : List (List String)) (f : String) (a : csvAttributes) (restB : AttrMap)
    (hattrs : p.csvAttrs = (f, a) :: restB) (hrows : p.rows = row :: rest)
    (hoob : ¬ (0 ≤ a.columnIndex ∧ a.columnIndex.toNat < row.length)) :
    ReadRecord p rec = .panicked "runtime error: index out of range" := by
  obtain ⟨rows, cattrs⟩ := p
  simp only at hattrs hrows
  subst hattrs
  subst hrows
  simp [ReadRecord, readRecordBody, readLoop, hoob]

/-- C2 witness: concrete instance of the amended claim: table
`F ↦ index 3`, consumed row `a,b` of length 2. -/
theorem c2_witness :
    (Parser.mk [["a", "b"]] [("F", ⟨"", 3, false⟩)]).csvAttrs = [("F", ⟨"", 3, false⟩)]
    ∧ (Parser.mk [["a", "b"]] [("F", ⟨"", 3, false⟩)]).rows = [["a", "b"]]
    ∧ ¬ (0 ≤ (⟨"", 3, false⟩ : csvAttributes).columnIndex
          ∧ (⟨"", 3, false⟩ : csvAttributes).columnIndex.toNat < (["a", "b"] : List String).length)
    ∧ ReadRecord (Parser.mk [["a", "b"]] [("F", ⟨"", 3, false⟩)]) recIdx3
      = .panicked "runtime error: index out of range" :=
  ⟨rfl, rfl, by decide,
    c2_amended (Parser.mk [["a", "b"]] [("F", ⟨"", 3, false⟩)]) recIdx3
      ["a", "b"] [] "F" ⟨"", 3, false⟩ [] rfl rfl (by decide)⟩

/-- C4 (amended): when extraction fails on the first call, the reader
does not keep an empty table: it stores the partially built table (the
bindings of the fields preceding the invalid one), and the error is
returned with the row source untouched. Subsequent calls seeing a
non-empty table skip re-extraction and use the partial table. -/
theorem c4_amended (p : Parser) (rec : GoStruct) (e : GoError)
    (hempty : p.csvAttrs = []) (hfail : (getCsvAttributes rec).2 = some e) :
    ReadRecord p rec = .err { p with csvAttrs := (getCsvAttributes rec).1 } rec e :=
  readRecord_extraction_failed p rec e hempty hfail

/-- C4 witness: concrete instance: extraction on `recAB` fails at `B`
but the returned reader carries the partial table `{A}`. -/
theorem c4_witness :
    (Parser.mk [["v1"], ["v2"]] []).csvAttrs = []
    ∧ (getCsvAttributes recAB).2 = some (.csvTagDefError "badkey" "B" .errMalformedCsvTag)
    ∧ ReadRecord (Parser.mk [["v1"], ["v2"]] []) recAB
      = .err { Parser.mk [["v1"], ["v2"]] [] with csvAttrs := (getCsvAttributes recAB).1 }
          recAB (.csvTagDefError "badkey" "B" .errMalformedCsvTag) :=
  ⟨rfl, rfl,
    c4_amended (Parser.mk [["v1"], ["v2"]] []) recAB
      (.csvTagDefError "badkey" "B" .errMalformedCsvTag) rfl rfl⟩

/-- C5 (amended): with a tag declaring neither header nor index,
extraction fails with the wrapped `MalformedTag` before any row is
consumed when `readRecord` triggers it; but `parseHeader` consumes its
one header row first and only then fails extraction. -/
theorem c5_amended (p : Parser) (rec : GoStruct) (e : GoError)
    (hempty : p.csvAttrs = []) (hfail : (getCsvAttributes rec).2 = some e) :
    (ReadRecord p rec).parserOf.map Parser.rows = some p.rows
    ∧ (∀ row rest, p.rows = row :: rest →
        ParseHeader p rec
          = ({ p with rows := rest, csvAttrs := (getCsvAttributes rec).1 }, some e)) := by
  constructor
  · rw [readRecord_extraction_failed p rec e hempty hfail]
    rfl
  · intro row rest hrows
    exact parseHeader_extraction_failed p rec e row rest hempty hrows hfail

/-- C5 witness: concrete instance on `recBadTag`: `readRecord` leaves
the row source untouched, while `parseHeader` has consumed the header
row when the `MalformedTag` failure surfaces. -/
theorem c5_witness :
    (Parser.mk [["x"]] []).csvAttrs = []
    ∧ (getCsvAttributes recBadTag).2 = some (.csvTagDefError "badkey" "F" .errMalformedCsvTag)
    ∧ ((ReadRecord (Parser.mk [["x"]] []) recBadTag).parserOf.map Parser.rows
        = some (Parser.mk [["x"]] []).rows
      ∧ (∀ row rest, (Parser.mk [["x"]] []).rows = row :: rest →
          ParseHeader (Parser.mk [["x"]] []) recBadTag
            = ({ (Parser.mk [["x"]] []) with
                   rows := rest,
                   csvAttrs := (getCsvAttributes recBadTag).1 },
               some (.csvTagDefError "badkey" "F" .errMalformedCsvTag)))) :=
  ⟨rfl, rfl,
    c5_amended (Parser.mk [["x"]] []) recBadTag
      (.csvTagDefError "badkey" "F" .errMalformedCsvTag) rfl rfl⟩

/-- C3 (amended): `parseHeader`'s resolution loop processes every
binding, index-based ones included: an index-based binding carries the
empty `headerName`, which is matched against the header cells like any
label. When no header cell is empty the call fails with `FieldNotFound`
for that binding; when some cell is empty the binding's `columnIndex`
is rewritten to the first empty cell's position, discarding the
declared index. -/
theorem c3_amended (header : List String) (f : String) (a : csvAttributes)
    (rest : AttrMap) (hidx : a.headerName = "") :
    (scanHeader "" header 0 = none →
      resolveBindings header ((f, a) :: rest)
        = ((f, a) :: rest, some (.fieldNotFoundError f "" .errFieldNotFound)))
    ∧ (∀ i, scanHeader "" header 0 = some i →
      (resolveBindings header ((f, a) :: rest)).1.head?
        = some (f, { a with columnIndex := (i : Int) })) := by
  constructor
  · intro hnone
    simp [resolveBindings, hidx, hnone]
  · intro i hsome
    simp [resolveBindings, hidx, hsome]

/-- C3 witness: the index-based binding `B ↦ index 0` against header
row `h1,x`: resolution fails with `FieldNotFound` naming `B` and the
empty label. -/
theorem c3_witness :
    (⟨"", 0, false⟩ : csvAttributes).headerName = ""
    ∧ scanHeader "" ["h1", "x"] 0 = none
    ∧ resolveBindings ["h1", "x"] [("B", ⟨"", 0, false⟩)]
      = ([("B", ⟨"", 0, false⟩)], some (.fieldNotFoundError "B" "" .errFieldNotFound)) :=
  ⟨rfl, rfl, (c3_amended ["h1", "x"] "B" ⟨"", 0, false⟩ [] rfl).1 rfl⟩

/-- Clauses whose key is neither `header` nor `index` leave the
`hasHeader`/`hasIndex` flags unchanged and cannot fail. -/
lemma attrLoop_no_addr (l : List String) :
    ∀ (attrs : csvAttributes) (hh hi : Bool),
    (∀ c ∈ l, clauseKey c ≠ "header" ∧ clauseKey c ≠ "index") →
    ∃ attrs2, attrLoop l attrs hh hi = .ok (attrs2, hh, hi) := by
  induction l with
  | nil => intro attrs hh hi _; exact ⟨attrs, rfl⟩
  | cons c rest ih =>
      intro attrs hh hi h
      have hc := h c (List.mem_cons_self c rest)
      have hrest : ∀ x ∈ rest, clauseKey x ≠ "header" ∧ clauseKey x ≠ "index" :=
        fun x hx => h x (List.mem_cons_of_mem c hx)
      by_cases hk : clauseKey c = "useCustomSetter"
      · obtain ⟨attrs2, h2⟩ := ih { attrs with useCustomSetter := true } hh hi hrest
        exact ⟨attrs2, by simp [attrLoop, hc.1, hc.2, hk, h2]⟩
      · obtain ⟨attrs2, h2⟩ := ih attrs hh hi hrest
        exact ⟨attrs2, by simp [attrLoop, hc.1, hc.2, hk, h2]⟩

/-- C6 (amended): `getAttributesFromTag` requires **at least** one of
`header`/`index`: a tag with neither fails with `MalformedTag`, but a
tag declaring both is accepted, yielding a binding with both the label
and the declared index set. -/
theorem c6_amended :
    (∀ tag : String,
      (∀ c ∈ stringSplit tag ';', clauseKey c ≠ "header" ∧ clauseKey c ≠ "index") →
      getAttributesFromTag tag = .error .errMalformedCsvTag)
    ∧ getAttributesFromTag "header:h;index:2" = .ok ⟨"h", 2, false⟩ := by
  constructor
  · intro tag h
    obtain ⟨attrs2, h2⟩ := attrLoop_no_addr (stringSplit tag ';') {} false false h
    simp [getAttributesFromTag, h2]
  · rfl

/-- C6 witness: the flag-only tag `useCustomSetter` declares neither
`header` nor `index` and parses to `MalformedTag`. -/
theorem c6_witness :
    (∀ c ∈ stringSplit "useCustomSetter" ';',
      clauseKey c ≠ "header" ∧ clauseKey c ≠ "index")
    ∧ getAttributesFromTag "useCustomSetter" = .error .errMalformedCsvTag :=
  ⟨by decide, c6_amended.1 "useCustomSetter" (by decide)⟩

/-- C7: a tagged, exported field whose tag does not request the custom
setter and whose static type is outside `isValidDataType`: without the
capability the extractor stops there with a wrapped
`UnsupportedDataType`; with the capability present on the type the
check is waived, the field is bound and extraction proceeds. The last
two conjuncts state the same at the whole-record level for the
single-field record. -/
theorem c7_capability_waiver (f : GoField) (rest : List GoField) (acc : AttrMap)
    (a : csvAttributes)
    (cs : String → String → List GoField → List GoField × Option String)
    (htag : f.tag ≠ "") (hexp : f.exported = true)
    (hparse : getAttributesFromTag f.tag = .ok a)
    (hnocustom : a.useCustomSetter = false)
    (hbad : isValidDataType f.type = false) :
    getCsvAttributesLoop false (f :: rest) acc
      = (acc, some (.csvTagDefError f.tag f.name .errUnsupportedDataType))
    ∧ getCsvAttributesLoop true (f :: rest) acc
      = getCsvAttributesLoop true rest (acc ++ [(f.name, a)])
    ∧ getCsvAttributes ⟨[f], false, cs⟩
      = ([], some (.csvTagDefError f.tag f.name .errUnsupportedDataType))
    ∧ getCsvAttributes ⟨[f], true, cs⟩ = ([(f.name, a)], none) := by
  refine ⟨?_, ?_, ?_, ?_⟩ <;>
    simp [getCsvAttributes, getCsvAttributesLoop, htag, hexp, hparse, hnocustom, hbad]

/-- C7 witness: the `interface{}`-typed field of the repository's own
tests (`unsupportedDataType1`/`unsupportedDataType2`): rejected without
the capability, accepted with it. -/
theorem c7_witness :
    (⟨"UnsupportedField", true, "header:field1", .tOther "interface", .vOther⟩ : GoField).tag ≠ ""
    ∧ getAttributesFromTag "header:field1" = .ok ⟨"field1", 0, false⟩
    ∧ isValidDataType (.tOther "interface") = false
    ∧ getCsvAttributes
        ⟨[⟨"UnsupportedField", true, "header:field1", .tOther "interface", .vOther⟩], false, noSetter⟩
      = ([], some (.csvTagDefError "header:field1" "UnsupportedField" .errUnsupportedDataType))
    ∧ getCsvAttributes
        ⟨[⟨"UnsupportedField", true, "header:field1", .tOther "interface", .vOther⟩], true, noSetter⟩
      = ([("UnsupportedField", ⟨"field1", 0, false⟩)], none) := by
  have h := c7_capability_waiver
    ⟨"UnsupportedField", true, "header:field1", .tOther "interface", .vOther⟩ [] []
    ⟨"field1", 0, false⟩ noSetter (by decide) rfl rfl rfl rfl
  exact ⟨by decide, rfl, rfl, h.2.2.1, h.2.2.2⟩

/-- Exact characterization of the header scan: a hit at `i` means the
cell at `i` carries the wanted label, no earlier cell does, and `i` is
in range (stated for an arbitrary starting offset `k`). -/
lemma scanHeader_some_spec (name : String) :
    ∀ (l : List String) (k i : Nat), scanHeader name l k = some i →
    k ≤ i ∧ i - k < l.length ∧ l.getD (i - k) "" = name
    ∧ ∀ j, j < i - k → l.getD j "" ≠ name := by
  intro l
  induction l with
  | nil => intro k i h; simp [scanHeader] at h
  | cons label rest ih =>
      intro k i h
      by_cases hl : label = name
      · rw [scanHeader, if_pos hl] at h
        have hik : i = k := by simpa using h.symm
        subst hik
        refine ⟨Nat.le_refl i, by simp, by simpa, ?_⟩
        intro j hj
        omega
      · rw [scanHeader, if_neg hl] at h
        obtain ⟨hk, hlen, hget, hprev⟩ := ih (k + 1) i h
        have hsub : i - k = (i - (k + 1)) + 1 := by omega
        refine ⟨by omega, by simp; omega, ?_, ?_⟩
        · rw [hsub, List.getD_cons_succ]
          exact hget
        · intro j hj
          cases j with
          | zero => simpa using hl
          | succ j2 =>
              rw [List.getD_cons_succ]
              exact hprev j2 (by omega)

/-- C8: for a header-based binding the resolution loop rewrites its
`columnIndex` to the position of the first exact (case-sensitive) match
of its label in the header row and continues with the remaining
bindings; when no cell matches, the whole call fails with
`FieldNotFound` naming the field and the expected label. -/
theorem c8_header_resolution (f : String) (a : csvAttributes) (rest : AttrMap)
    (header : List String) (hheaderBased : a.headerName ≠ "") :
    (∀ i, scanHeader a.headerName header 0 = some i →
      i < header.length ∧ header.getD i "" = a.headerName
      ∧ (∀ j, j < i → header.getD j "" ≠ a.headerName)
      ∧ resolveBindings header ((f, a) :: rest)
          = ((f, { a with columnIndex := (i : Int) }) :: (resolveBindings header rest).1,
             (resolveBindings header rest).2))
    ∧ (scanHeader a.headerName header 0 = none →
      resolveBindings header ((f, a) :: rest)
        = ((f, a) :: rest, some (.fieldNotFoundError f a.headerName .errFieldNotFound))) := by
  constructor
  · intro i hsome
    have hs := scanHeader_some_spec a.headerName header 0 i hsome
    simp only [Nat.sub_zero] at hs
    refine ⟨hs.2.1, hs.2.2.1, hs.2.2.2, ?_⟩
    simp [resolveBindings, hsome]
  · intro hnone
    simp [resolveBindings, hnone]

/-- C8 witness: label `h` against header `x,h,h`: the first match at
position 1 wins and the binding is rewritten to column 1; the duplicate
at position 2 is ignored. -/
theorem c8_witness :
    (⟨"h", 5, false⟩ : csvAttributes).headerName ≠ ""
    ∧ scanHeader "h" ["x", "h", "h"] 0 = some 1
    ∧ (1 < (["x", "h", "h"] : List String).length
        ∧ (["x", "h", "h"] : List String).getD 1 "" = "h"
        ∧ (∀ j, j < 1 → (["x", "h", "h"] : List String).getD j "" ≠ "h")
        ∧ resolveBindings ["x", "h", "h"] [("F", ⟨"h", 5, false⟩)]
          = ([("F", ⟨"h", 1, false⟩)], none)) := by
  refine ⟨by decide, rfl, ?_⟩
  have h := (c8_header_resolution "F" ⟨"h", 5, false⟩ [] ["x", "h", "h"]
    (by decide)).1 1 rfl
  exact ⟨h.1, h.2.1, h.2.2.1, by rw [h.2.2.2]; rfl⟩

/-- A clause list containing an `index` clause with a bad value always
drives the clause loop into `ErrorInvalidIndex`. -/
lemma attrLoop_bad_index (l : List String) :
    ∀ (attrs : csvAttributes) (hh hi : Bool),
    (∃ c ∈ l, clauseKey c = "index" ∧ badIndexVal (clauseVal c) = true) →
    attrLoop l attrs hh hi = .error .errInvalidIndex := by
  induction l with
  | nil => intro attrs hh hi h; simp at h
  | cons c rest ih =>
      intro attrs hh hi h
      obtain ⟨c0, hc0, hkey, hbad⟩ := h
      rcases List.mem_cons.mp hc0 with hc0c | hc0rest
      · subst hc0c
        have hnh : ¬ clauseKey c0 = "header" := by rw [hkey]; decide
        rw [attrLoop, if_neg hnh, if_pos hkey]
        unfold badIndexVal at hbad
        cases hA : Atoi (clauseVal c0) with
        | none => simp [hA]
        | some n =>
            rw [hA] at hbad
            simp only [decide_eq_true_eq] at hbad
            simp [hA, hbad]
      · have hrest : ∃ x ∈ rest, clauseKey x = "index" ∧ badIndexVal (clauseVal x) = true :=
          ⟨c0, hc0rest, hkey, hbad⟩
        by_cases hh1 : clauseKey c = "header"
        · rw [attrLoop, if_pos hh1]
          exact ih _ _ _ hrest
        · by_cases hi1 : clauseKey c = "index"
          · rw [attrLoop, if_neg hh1, if_pos hi1]
            cases hA : Atoi (clauseVal c) with
            | none => rfl
            | some n =>
                by_cases hn : n < 0
                · simp [hn]
                · simp only [if_neg hn]
                  exact ih _ _ _ hrest
          · by_cases hu : clauseKey c = "useCustomSetter"
            · rw [attrLoop, if_neg hh1, if_neg hi1, if_pos hu]
              exact ih _ _ _ hrest
            · rw [attrLoop, if_neg hh1, if_neg hi1, if_neg hu]
              exact ih _ _ _ hrest

/-- C9: any tag containing an `index` clause whose value fails base-10
integer parsing or parses negative makes `getAttributesFromTag` fail
with `InvalidIndex`; in particular `index:-1` and `index:a` do. -/
theorem c9_invalid_index :
    (∀ tag : String,
      (∃ c ∈ stringSplit tag ';', clauseKey c = "index" ∧ badIndexVal (clauseVal c) = true) →
      getAttributesFromTag tag = .error .errInvalidIndex)
    ∧ getAttributesFromTag "index:-1" = .error .errInvalidIndex
    ∧ getAttributesFromTag "index:a" = .error .errInvalidIndex := by
  refine ⟨?_, rfl, rfl⟩
  intro tag h
  have hl := attrLoop_bad_index (stringSplit tag ';') {} false false h
  simp [getAttributesFromTag, hl]

/-- C9 witness: the general statement instantiated at `index:-1`. -/
theorem c9_witness :
    (∃ c ∈ stringSplit "index:-1" ';',
      clauseKey c = "index" ∧ badIndexVal (clauseVal c) = true)
    ∧ getAttributesFromTag "index:-1" = .error .errInvalidIndex :=
  ⟨by decide, c9_invalid_index.1 "index:-1" (by decide)⟩

/-- The row loop never touches the parser state: a non-panicking
outcome carries the parser it was given. -/
lemma readLoop_parserOf (p : Parser) (row : List String) :
    ∀ (l : AttrMap) (rec : GoStruct) (q : Parser),
    (readLoop p row l rec).parserOf = some q → q = p := by
  intro l
  induction l with
  | nil =>
      intro rec q h
      simp only [readLoop, ReadResult.parserOf, Option.some.injEq] at h
      exact h.symm
  | cons hd tl ih =>
      intro rec q h
      obtain ⟨fieldName, attrs⟩ := hd
      simp only [readLoop] at h
      by_cases hc : 0 ≤ attrs.columnIndex ∧ attrs.columnIndex.toNat < row.length
      · rw [if_pos hc] at h
        cases hsv : setFieldValue p.csvAttrs rec fieldName (row.getD attrs.columnIndex.toNat "") with
        | panicked msg => rw [hsv] at h; simp [ReadResult.parserOf] at h
        | err rec2 e =>
            rw [hsv] at h
            simp only [ReadResult.parserOf, Option.some.injEq] at h
            exact h.symm
        | ok rec2 => rw [hsv] at h; exact ih rec2 q h
      · rw [if_neg hc] at h
        simp [ReadResult.parserOf] at h

/-- C10: once the reader's table is non-empty, `readRecord` and
`parseHeader` skip extraction entirely: no type-identity check is made,
the cached table is used as-is against whatever record instance is
passed (its fields addressed by name in `readRecordBody`), the
resolution in `parseHeader` operates on the cached table, and a
non-panicking `readRecord` outcome still carries the same table. -/
theorem c10_cached_table (p : Parser) (rec : GoStruct) (hne : p.csvAttrs ≠ []) :
    ReadRecord p rec = readRecordBody p rec
    ∧ ParseHeader p rec
      = (match p.rows with
         | [] => (p, some .errEOF)
         | header :: rest =>
             ({ p with rows := rest, csvAttrs := (resolveBindings header p.csvAttrs).1 },
              (resolveBindings header p.csvAttrs).2))
    ∧ ∀ q, (ReadRecord p rec).parserOf = some q → q.csvAttrs = p.csvAttrs := by
  have hlen : ¬ p.csvAttrs.length = 0 := by
    simpa [List.length_eq_zero] using hne
  have hbody : ReadRecord p rec = readRecordBody p rec := by
    simp [ReadRecord, hlen]
  refine ⟨hbody, ?_, ?_⟩
  · obtain ⟨rows, cattrs⟩ := p
    cases rows with
    | nil => simp [ParseHeader]
    | cons header rest =>
        simp only at hlen
        simp [ParseHeader, hlen]
  · intro q hq
    rw [hbody] at hq
    obtain ⟨rows, cattrs⟩ := p
    cases rows with
    | nil =>
        simp only [readRecordBody, ReadResult.parserOf, Option.some.injEq] at hq
        rw [← hq]
    | cons row rest =>
        simp only [readRecordBody] at hq
        have hqp := readLoop_parserOf ⟨rest, cattrs⟩ row cattrs rec q hq
        rw [hqp]

/-- C10 witness: a reader whose cached table was built from a record
with a `Field1` binding, then fed the structurally different `recOther`
instance: extraction is skipped and the cached table applied. -/
theorem c10_witness :
    (Parser.mk [["v1"]] [("Field1", ⟨"", 0, false⟩)]).csvAttrs ≠ []
    ∧ ReadRecord (Parser.mk [["v1"]] [("Field1", ⟨"", 0, false⟩)]) recOther
      = readRecordBody (Parser.mk [["v1"]] [("Field1", ⟨"", 0, false⟩)]) recOther :=
  ⟨by decide,
    (c10_cached_table (Parser.mk [["v1"]] [("Field1", ⟨"", 0, false⟩)]) recOther
      (by decide)).1⟩

end GoCsv
